import Mathlib

/-
Verification of the currency-rate controller core (mutex-serialized
exchange-rate refresh, self-rescheduling poll loop, optimistic pending
currency writes), the address-book `set` operation, and the wasm
endowment specification builder, against their natural-language
specification.

The TypeScript sources are embedded shallowly: JS `string | null`
becomes `Option String`, JS numbers that are only passed through become
`Int`, a rejected promise becomes `Except.error`, and the cooperative
single-threaded interleaving of the async methods becomes a labelled
small-step relation on an explicit `World`.
-/

namespace CRC

/-- State of the controller (`CurrencyRateState` in the source).
`pendingCurrentCurrency`/`pendingNativeCurrency` are `string | null`
in TS, hence `Option String`; the optional `usdConversionRate` is
`Option Int`. -/
structure CurrencyRateState where
  conversionDate : Int
  conversionRate : Int
  currentCurrency : String
  nativeCurrency : String
  pendingCurrentCurrency : Option String
  pendingNativeCurrency : Option String
  usdConversionRate : Option Int
deriving DecidableEq, Repr

/-- JS truthiness disjunction `a || b` applied to `a : string | null`:
both `null` and the empty string are falsy, so they fall through to `b`. -/
def orElseJS : Option String → String → String
  | none, b => b
  | some s, b => if s = "" then b else s

/-- The controller's `defaultState` (the `usdConversionRate` key is absent). -/
def defaultState : CurrencyRateState :=
  { conversionDate := 0
    conversionRate := 0
    currentCurrency := "usd"
    nativeCurrency := "ETH"
    pendingCurrentCurrency := none
    pendingNativeCurrency := none
    usdConversionRate := none }

/-- The four currency fields destructured from `this.state` at the start of
`updateExchangeRate`, right after the mutex is acquired. -/
structure Snapshot where
  currentCurrency : String
  nativeCurrency : String
  pendingCurrentCurrency : Option String
  pendingNativeCurrency : Option String
deriving DecidableEq, Repr

/-- Take the snapshot of the four currency fields of a state. -/
def snapshotOf (s : CurrencyRateState) : Snapshot :=
  { currentCurrency := s.currentCurrency
    nativeCurrency := s.nativeCurrency
    pendingCurrentCurrency := s.pendingCurrentCurrency
    pendingNativeCurrency := s.pendingNativeCurrency }

/-- The quote currency passed to the fetcher:
`pendingCurrentCurrency || currentCurrency` on the snapshot. -/
def resolvedQuote (snap : Snapshot) : String :=
  orElseJS snap.pendingCurrentCurrency snap.currentCurrency

/-- The base asset passed to the fetcher:
`pendingNativeCurrency || nativeCurrency` on the snapshot. -/
def resolvedBase (snap : Snapshot) : String :=
  orElseJS snap.pendingNativeCurrency snap.nativeCurrency

/-- Result object of a successful `fetchExchangeRate` call
(the fields destructured in `updateExchangeRate`). -/
structure FetchResult where
  conversionDate : Int
  conversionRate : Int
  usdConversionRate : Option Int
deriving DecidableEq, Repr

/-- Type of the injected rate fetcher: arguments are the quote currency, the
base asset and `includeUsdRate`; a rejected promise is `Except.error`. -/
def FetchFn : Type :=
  String → String → Bool → Except Unit FetchResult

/-- The full replacement object returned by the `this.update(() => ...)`
callback on a successful fetch in `updateExchangeRate`. -/
def commitState (snap : Snapshot) (res : FetchResult) : CurrencyRateState :=
  { conversionDate := res.conversionDate
    conversionRate := res.conversionRate
    currentCurrency := orElseJS snap.pendingCurrentCurrency snap.currentCurrency
    nativeCurrency := orElseJS snap.pendingNativeCurrency snap.nativeCurrency
    pendingCurrentCurrency := none
    pendingNativeCurrency := none
    usdConversionRate := res.usdConversionRate }

/-- Modelled from the spec: `safelyExecute` is imported from `../util`, which
is not under src. Per the spec it is a non-propagating wrapper: it returns
the operation's value on success and swallows any failure (resolving
`undefined`, here `none`), never rethrowing. -/
def safelyExecute {α : Type} : Except Unit α → Option α
  | .ok a => some a
  | .error _ => none

/-- Sequential (interleaving-free) run of `updateExchangeRate`: returns the
value the promise resolves or rejects with, paired with the post state.
The JS body has no `return` statement, so on success the promise resolves
`undefined` (`Except.ok none`); on failure the error propagates after the
`finally` releases the lock. -/
def updateExchangeRateRun (fetch : FetchFn) (includeUsdRate : Bool)
    (s : CurrencyRateState) :
    Except Unit (Option CurrencyRateState) × CurrencyRateState :=
  let snap := snapshotOf s
  match fetch (resolvedQuote snap) (resolvedBase snap) includeUsdRate with
  | .ok res => (.ok none, commitState snap res)
  | .error e => (.error e, s)

/-- Sequential run of `setCurrentCurrency code`: first the synchronous
pending write, then `safelyExecute (() => updateExchangeRate())`.
Returns the caller-visible value (no error channel: failures are
swallowed), the state right after the synchronous write, and the final
state. -/
def setCurrentCurrencyRun (fetch : FetchFn) (includeUsdRate : Bool)
    (code : String) (s : CurrencyRateState) :
    Option (Option CurrencyRateState) × CurrencyRateState × CurrencyRateState :=
  let s1 := { s with pendingCurrentCurrency := some code }
  let r := updateExchangeRateRun fetch includeUsdRate s1
  (safelyExecute r.1, s1, r.2)

/-- Sequential run of `setNativeCurrency symbol`, symmetric to
`setCurrentCurrencyRun` on `pendingNativeCurrency`. -/
def setNativeCurrencyRun (fetch : FetchFn) (includeUsdRate : Bool)
    (symbol : String) (s : CurrencyRateState) :
    Option (Option CurrencyRateState) × CurrencyRateState × CurrencyRateState :=
  let s1 := { s with pendingNativeCurrency := some symbol }
  let r := updateExchangeRateRun fetch includeUsdRate s1
  (safelyExecute r.1, s1, r.2)

/-- `Partial<CurrencyRateState>`: every property may be absent. -/
structure PartialCurrencyRateState where
  conversionDate : Option Int
  conversionRate : Option Int
  currentCurrency : Option String
  nativeCurrency : Option String
  pendingCurrentCurrency : Option (Option String)
  pendingNativeCurrency : Option (Option String)
  usdConversionRate : Option (Option Int)
deriving DecidableEq, Repr

/-- The empty partial state (no property present). -/
def emptyPartial : PartialCurrencyRateState :=
  { conversionDate := none
    conversionRate := none
    currentCurrency := none
    nativeCurrency := none
    pendingCurrentCurrency := none
    pendingNativeCurrency := none
    usdConversionRate := none }

/-- The object spread `{ ...d, ...p }` used by the constructor: a property
present in the partial override wins over the default. -/
def mergeState (d : CurrencyRateState) (p : PartialCurrencyRateState) :
    CurrencyRateState :=
  { conversionDate := p.conversionDate.getD d.conversionDate
    conversionRate := p.conversionRate.getD d.conversionRate
    currentCurrency := p.currentCurrency.getD d.currentCurrency
    nativeCurrency := p.nativeCurrency.getD d.nativeCurrency
    pendingCurrentCurrency := p.pendingCurrentCurrency.getD d.pendingCurrentCurrency
    pendingNativeCurrency := p.pendingNativeCurrency.getD d.pendingNativeCurrency
    usdConversionRate := p.usdConversionRate.getD d.usdConversionRate }

/-- The controller fields fixed at construction. `interval` is a private
field initialized to `180000`; the constructor (whose parameters are the
messaging system, the optional partial state, `includeUsdRate` and
`fetchExchangeRate`) never assigns it. The messaging system is elided:
it carries no data relevant to these claims. -/
structure CurrencyRateController where
  state : CurrencyRateState
  includeUsdRate : Bool
  fetchExchangeRate : FetchFn
  interval : Int

/-- The constructor: merges the partial state over the default, stores the
flag and the fetcher, and leaves `interval` at its initializer `180000`. -/
def mkCurrencyRateController (initState : Option PartialCurrencyRateState)
    (includeUsdRate : Bool) (fetch : FetchFn) : CurrencyRateController :=
  { state := mergeState defaultState (initState.getD emptyPartial)
    includeUsdRate := includeUsdRate
    fetchExchangeRate := fetch
    interval := 180000 }

/-- Which entry point dispatched a given `updateExchangeRate` invocation:
a poll-loop tick, `setCurrentCurrency code`, or `setNativeCurrency symbol`. -/
inductive Origin where
  | poll
  | reqQuote (code : String)
  | reqBase (symbol : String)
deriving DecidableEq, Repr

/-- Progress of one `updateExchangeRate` invocation through its cooperative
suspension points:
awaiting the mutex; holding the lock with the snapshot taken and the fetch
dispatched; fetch settled but commit/release not yet run; promise settled
(`done`, with the resolution value); and finally reaped by its caller's
continuation (`completed`). -/
inductive Phase where
  | acquiring
  | fetching (snap : Snapshot)
  | resolved (snap : Snapshot) (res : Except Unit FetchResult)
  | done (ret : Except Unit (Option CurrencyRateState))
  | completed

/-- A dispatched `updateExchangeRate` invocation. -/
structure RefreshTask where
  origin : Origin
  phase : Phase

/-- Observable side effects: the state-changed notification emitted by every
`this.update`, and each call made to the injected rate fetcher. -/
inductive Event where
  | stateChanged (s : CurrencyRateState)
  | fetchCall (quote : String) (base : String) (includeUsdRate : Bool)
deriving Repr

/-- A task holds the lock while it is between mutex acquisition and release. -/
def Phase.isActive : Phase → Bool
  | .fetching _ => true
  | .resolved _ _ => true
  | .acquiring => false
  | .done _ => false
  | .completed => false

/-- Global configuration of one controller run together with everything the
interleaved methods touch. Modelled from the spec where the collaborators
are outside src: the mutex (external `await-semaphore` package) is, per the
spec, an exclusive FIFO-fair lock — an `owner` plus a FIFO wait `queue` of
task indices; the State Store (`BaseController`, not in src) applies
replacement updates and emits a `stateChanged` event per update. `tasks`
lists every dispatched refresh in dispatch order, so the list index of a
task records when it was dispatched to the mutex; `grants` records the
task indices in lock-acquisition order; `events` is most recent first. -/
structure World where
  state : CurrencyRateState
  owner : Option Nat
  queue : List Nat
  tasks : List RefreshTask
  grants : List Nat
  timerSet : Bool
  destroyed : Bool
  includeUsdRate : Bool
  events : List Event

/-- Dispatch a refresh: append the task and enqueue its index on the mutex
(`this.mutex.acquire()` suspends the new invocation until granted). -/
def enqueueTask (w : World) (t : RefreshTask) : World :=
  { w with tasks := w.tasks ++ [t], queue := w.queue ++ [w.tasks.length] }

/-- A poll tick fires: the timer is consumed, `poll()` clears the (already
fired) handle and dispatches `updateExchangeRate` through `safelyExecute`. -/
def tickWorld (w : World) : World :=
  { enqueueTask w ⟨.poll, .acquiring⟩ with timerSet := false }

/-- Body of `setCurrentCurrency code`: synchronously write
`pendingCurrentCurrency = code` (emitting the state-changed notification),
then dispatch `updateExchangeRate` through `safelyExecute`. -/
def reqQuoteWorld (w : World) (code : String) : World :=
  let s1 := { w.state with pendingCurrentCurrency := some code }
  { enqueueTask w ⟨.reqQuote code, .acquiring⟩ with
    state := s1, events := .stateChanged s1 :: w.events }

/-- Body of `setNativeCurrency symbol`, symmetric on `pendingNativeCurrency`. -/
def reqBaseWorld (w : World) (symbol : String) : World :=
  let s1 := { w.state with pendingNativeCurrency := some symbol }
  { enqueueTask w ⟨.reqBase symbol, .acquiring⟩ with
    state := s1, events := .stateChanged s1 :: w.events }

/-- The mutex grants the lock to the head of its queue: the resumed
invocation synchronously snapshots the four currency fields and calls the
rate fetcher with the resolved pair, then suspends awaiting the result. -/
def grantWorld (w : World) (i : Nat) (rest : List Nat) (o : Origin) : World :=
  let snap := snapshotOf w.state
  { w with
    owner := some i
    queue := rest
    tasks := w.tasks.set i ⟨o, .fetching snap⟩
    grants := w.grants ++ [i]
    events := .fetchCall (resolvedQuote snap) (resolvedBase snap)
        w.includeUsdRate :: w.events }

/-- The pending fetch of task `i` settles (fulfilled or rejected); the
invocation has not yet resumed. -/
def resolveWorld (w : World) (i : Nat) (o : Origin) (snap : Snapshot)
    (res : Except Unit FetchResult) : World :=
  { w with tasks := w.tasks.set i ⟨o, .resolved snap res⟩ }

/-- Task `i` resumes after a fulfilled fetch: in one synchronous stretch it
commits the full replacement state with `this.update` (emitting the
notification), releases the lock in the `finally`, and resolves
`undefined` (the body has no `return`). -/
def resumeOkWorld (w : World) (i : Nat) (o : Origin) (snap : Snapshot)
    (res : FetchResult) : World :=
  let s1 := commitState snap res
  { w with
    owner := none
    state := s1
    tasks := w.tasks.set i ⟨o, .done (.ok none)⟩
    events := .stateChanged s1 :: w.events }

/-- Task `i` resumes after a rejected fetch: nothing is committed, the
`finally` releases the lock, and the rejection propagates to the caller
(which wraps the call in `safelyExecute`). -/
def resumeErrWorld (w : World) (i : Nat) (o : Origin) : World :=
  { w with owner := none, tasks := w.tasks.set i ⟨o, .done (.error ())⟩ }

/-- The caller's continuation after its refresh settled: `safelyExecute`
swallows any rejection; a poll-loop caller then runs
`setTimeout(() => this.poll(), this.interval)`, re-arming the timer
whatever the outcome was — even if `destroy` already ran. -/
def contWorld (w : World) (i : Nat) (o : Origin) : World :=
  { w with
    tasks := w.tasks.set i ⟨o, .completed⟩
    timerSet := if o = Origin.poll then true else w.timerSet }

/-- The body of `destroy`: detach from the messaging system and clear the
outstanding timer handle, if any. No flag stops an in-flight `poll`. -/
def destroyWorld (w : World) : World :=
  { w with destroyed := true, timerSet := false }

/-- The world right after the constructor ran: merged initial state, and the
synchronous `this.poll()` call has already dispatched refresh task `0`
(the timer is armed only after that refresh settles). -/
def initWorld (initState : Option PartialCurrencyRateState)
    (includeUsdRate : Bool) : World :=
  { state := mergeState defaultState (initState.getD emptyPartial)
    owner := none
    queue := [0]
    tasks := [⟨.poll, .acquiring⟩]
    grants := []
    timerSet := false
    destroyed := false
    includeUsdRate := includeUsdRate
    events := [] }

/-- Labels of the interleaving steps. -/
inductive Label where
  | tick
  | reqQuote (code : String)
  | reqBase (symbol : String)
  | grant (i : Nat)
  | fetchOk (i : Nat) (res : FetchResult)
  | fetchErr (i : Nat)
  | resumeOk (i : Nat)
  | resumeErr (i : Nat)
  | cont (i : Nat)
  | destroy

/-- Small-step interleaving semantics of the controller: each step is one
uninterrupted synchronous stretch of JS between suspension points. -/
inductive Step : World → Label → World → Prop where
  | tick {w : World} (h : w.timerSet = true) :
      Step w .tick (tickWorld w)
  | reqQuote {w : World} (code : String) :
      Step w (.reqQuote code) (reqQuoteWorld w code)
  | reqBase {w : World} (symbol : String) :
      Step w (.reqBase symbol) (reqBaseWorld w symbol)
  | grant {w : World} {i : Nat} {rest : List Nat} {o : Origin}
      (hOwner : w.owner = none) (hQueue : w.queue = i :: rest)
      (hTask : w.tasks[i]? = some ⟨o, .acquiring⟩) :
      Step w (.grant i) (grantWorld w i rest o)
  | fetchOk {w : World} {i : Nat} {o : Origin} {snap : Snapshot}
      (res : FetchResult)
      (hTask : w.tasks[i]? = some ⟨o, .fetching snap⟩) :
      Step w (.fetchOk i res) (resolveWorld w i o snap (.ok res))
  | fetchErr {w : World} {i : Nat} {o : Origin} {snap : Snapshot}
      (hTask : w.tasks[i]? = some ⟨o, .fetching snap⟩) :
      Step w (.fetchErr i) (resolveWorld w i o snap (.error ()))
  | resumeOk {w : World} {i : Nat} {o : Origin} {snap : Snapshot}
      {res : FetchResult}
      (hOwner : w.owner = some i)
      (hTask : w.tasks[i]? = some ⟨o, .resolved snap (.ok res)⟩) :
      Step w (.resumeOk i) (resumeOkWorld w i o snap res)
  | resumeErr {w : World} {i : Nat} {o : Origin} {snap : Snapshot}
      (hOwner : w.owner = some i)
      (hTask : w.tasks[i]? = some ⟨o, .resolved snap (.error ())⟩) :
      Step w (.resumeErr i) (resumeErrWorld w i o)
  | cont {w : World} {i : Nat} {o : Origin}
      {ret : Except Unit (Option CurrencyRateState)}
      (hTask : w.tasks[i]? = some ⟨o, .done ret⟩) :
      Step w (.cont i) (contWorld w i o)
  | destroy {w : World} :
      Step w .destroy (destroyWorld w)

/-- Some step. -/
def StepAny (a b : World) : Prop := ∃ l, Step a l b

/-- Worlds reachable from a freshly constructed controller. -/
def Reachable (initState : Option PartialCurrencyRateState)
    (includeUsdRate : Bool) (w : World) : Prop :=
  Relation.ReflTransGen StepAny (initWorld initState includeUsdRate) w

/-- Worlds reachable from a given world. -/
def ReachFrom (a b : World) : Prop := Relation.ReflTransGen StepAny a b

/-- Task `i` is inside its fetch-and-commit critical section. -/
def activeAt (w : World) (i : Nat) : Prop :=
  ∃ t, w.tasks[i]? = some t ∧ t.phase.isActive = true

/-- The poll loop is fully shut down: the timer is unarmed and no
poll-originated refresh is anywhere in flight. -/
def pollQuiescent (w : World) : Prop :=
  w.timerSet = false ∧
  ∀ (i : Nat) (o : Origin) (p : Phase),
    w.tasks[i]? = some ⟨o, p⟩ → o = Origin.poll → p = Phase.completed

/-- Inductive invariant of the interleaving semantics: the lock owner is
exactly the active task; queued tasks are still acquiring; the wait queue
and the grant history are strictly increasing in dispatch order; and every
grant precedes every queued task in dispatch order. -/
structure Inv (w : World) : Prop where
  ownerOfActive : ∀ i t, w.tasks[i]? = some t → t.phase.isActive = true →
    w.owner = some i
  activeOfOwner : ∀ i, w.owner = some i → activeAt w i
  queuedAcquiring : ∀ i ∈ w.queue, ∃ o, w.tasks[i]? = some ⟨o, Phase.acquiring⟩
  queueSorted : w.queue.Sorted (· < ·)
  grantsSorted : w.grants.Sorted (· < ·)
  grantsBeforeQueue : ∀ g ∈ w.grants, ∀ q ∈ w.queue, g < q
  grantsLt : ∀ g ∈ w.grants, g < w.tasks.length

/-- Concrete reachable world: the constructor's own poll-dispatched refresh
has just been granted the lock. -/
def c1StepWorld : World := grantWorld (initWorld none false) 0 [] Origin.poll

/-- Concrete snapshot with an outstanding quote-currency switch to `eur`. -/
def c2Snap : Snapshot :=
  { currentCurrency := "usd", nativeCurrency := "ETH",
    pendingCurrentCurrency := some "eur", pendingNativeCurrency := none }

/-- Concrete fetch result. -/
def c2Res : FetchResult :=
  { conversionDate := 1000, conversionRate := 91, usdConversionRate := none }

/-- Concrete world in which a `setCurrentCurrency "eur"` refresh holds the
lock and its fetch has just been fulfilled. -/
def c2World : World :=
  { state := { defaultState with pendingCurrentCurrency := some "eur" }
    owner := some 0
    queue := []
    tasks := [⟨Origin.reqQuote "eur", Phase.resolved c2Snap (Except.ok c2Res)⟩]
    grants := [0]
    timerSet := false
    destroyed := false
    includeUsdRate := false
    events := [] }

/-- Concrete world in which the lock-holding poll refresh has just had its
fetch rejected. -/
def c3World : World :=
  { state := defaultState
    owner := some 0
    queue := []
    tasks := [⟨Origin.poll,
      Phase.resolved (snapshotOf defaultState) (Except.error ())⟩]
    grants := [0]
    timerSet := false
    destroyed := false
    includeUsdRate := false
    events := [] }

/-- Concrete world with a present-but-empty pending quote currency
(`setCurrentCurrency ""` was called) and its refresh first on the mutex
queue. -/
def c4World : World :=
  { state := { defaultState with pendingCurrentCurrency := some "" }
    owner := none
    queue := [0]
    tasks := [⟨Origin.reqQuote "", Phase.acquiring⟩]
    grants := []
    timerSet := false
    destroyed := false
    includeUsdRate := false
    events := [] }

/-- Concrete world with a pending quote currency `eur` and its refresh first
on the mutex queue. -/
def c4wWorld : World :=
  { state := { defaultState with pendingCurrentCurrency := some "eur" }
    owner := none
    queue := [0]
    tasks := [⟨Origin.reqQuote "eur", Phase.acquiring⟩]
    grants := []
    timerSet := false
    destroyed := false
    includeUsdRate := false
    events := [] }

/-- Concrete world in which a poll-originated refresh has settled (with a
rejection) after `destroy` already ran. -/
def c6wWorld : World :=
  { state := defaultState
    owner := none
    queue := []
    tasks := [⟨Origin.poll, Phase.done (Except.error ())⟩]
    grants := [0]
    timerSet := false
    destroyed := true
    includeUsdRate := false
    events := [] }

/-- Concrete destroyed world whose poll loop is fully quiescent. -/
def c6qWorld : World :=
  { state := defaultState
    owner := none
    queue := []
    tasks := []
    grants := []
    timerSet := false
    destroyed := true
    includeUsdRate := false
    events := [] }

/-- Trace refuting teardown finality, step 0: a freshly constructed
controller (its first poll refresh is queued on the mutex). -/
def b0 : World := initWorld none false

/-- Step 1: the poll refresh acquires the lock and calls the fetcher. -/
def b1 : World := grantWorld b0 0 [] Origin.poll

/-- Step 2: `destroy` runs while that refresh is in flight. -/
def b2 : World := destroyWorld b1

/-- Step 3: the in-flight fetch is rejected. -/
def b3 : World := resolveWorld b2 0 Origin.poll (snapshotOf b0.state) (Except.error ())

/-- Step 4: the refresh resumes, commits nothing and releases the lock. -/
def b4 : World := resumeErrWorld b3 0 Origin.poll

/-- Step 5: `poll`'s continuation swallows the failure and re-arms the
timer — although `destroy` already ran. -/
def b5 : World := contWorld b4 0 Origin.poll

/-- Step 6: the configured interval elapses and the timer fires a new poll
tick, dispatching refresh task 1. -/
def b6 : World := tickWorld b5

/-- Step 7: refresh task 1 acquires the lock and calls the fetcher: a fetch
call after teardown. -/
def b7 : World := grantWorld b6 1 [] Origin.poll

end CRC

namespace AddressBook

/-- AddressBookEntry: a stored contact. -/
structure AddressBookEntry where
  address : String
  name : String
  chainId : Int
  memo : String
deriving DecidableEq, Repr

/-- The `addressBook` object of `AddressBookState`, keyed by address. -/
def AddressBookMap : Type := String → Option AddressBookEntry

/-- The shallow merge `extend(book, { [address]: entry })` (the `xtend`
helper): the new key wins, every other key is kept. -/
def extendWith (book : AddressBookMap) (address : String)
    (entry : AddressBookEntry) : AddressBookMap :=
  fun k => if k = address then some entry else book k

/-- AddressBookController.set, parametrized by the external
`isValidAddress` oracle (`ethereumjs-util` is not part of this
repository). Returns the boolean result together with the new
`addressBook`; the TS defaults `chainId = 1` and `memo = ''` are kept
as optional arguments. -/
def set (isValidAddress : String → Bool) (book : AddressBookMap)
    (address : String) (name : String) (chainId : Int := 1)
    (memo : String := "") : Bool × AddressBookMap :=
  if isValidAddress address then
    (true, extendWith book address ⟨address, name, chainId, memo⟩)
  else
    (false, book)

end AddressBook

namespace Endowments

/-- Modelled from the spec: `PermissionType` is imported from
`../Permission`, which is not under src; only its `Endowment` variant is
used by the wasm endowment. -/
inductive PermissionType where
  | RestrictedMethod
  | Endowment
deriving DecidableEq, Repr

/-- Modelled from the spec: `EndowmentGetterParams` is imported from
`../Permission` (not under src); its contents are ignored by the wasm
endowment getter. -/
structure EndowmentGetterParams

/-- Stand-in for the TS `any` accepted (and ignored) by the
specification builder. -/
structure BuilderOptions

/-- The `permissionName` constant of the wasm endowment. -/
def permissionName : String := "endowment:wasm"

/-- The shape of the specification object returned by the builder. -/
structure PermissionSpecification where
  permissionType : PermissionType
  targetKey : String
  endowmentGetter : Option EndowmentGetterParams → List String
  allowedCaveats : Option (List String)

/-- The wasm `specificationBuilder`: ignores its options and returns the
fixed endowment specification whose getter yields `['WebAssembly']`. -/
def specificationBuilder (_builderOptions : Option BuilderOptions) :
    PermissionSpecification :=
  { permissionType := .Endowment
    targetKey := permissionName
    allowedCaveats := none
    endowmentGetter := fun _ => ["WebAssembly"] }

/-- The frozen `webAssemblyEndowmentBuilder` object. -/
structure WebAssemblyEndowmentBuilder where
  targetKey : String
  specificationBuilder : Option BuilderOptions → PermissionSpecification

/-- The exported builder: `{ targetKey: permissionName, specificationBuilder }`. -/
def webAssemblyEndowmentBuilder : WebAssemblyEndowmentBuilder :=
  { targetKey := permissionName
    specificationBuilder := specificationBuilder }

end Endowments

namespace CRC

lemma lt_of_getElem?_some {α : Type} {l : List α} {i : Nat} {a : α}
    (h : l[i]? = some a) : i < l.length := by
  by_contra hc
  rw [List.getElem?_eq_none (by omega)] at h
  exact Option.noConfusion h

lemma getElem?_set_self_of_some {α : Type} (l : List α) {i : Nat} {b : α}
    (a : α) (h : l[i]? = some b) : (l.set i a)[i]? = some a := by
  have hlt : i < l.length := lt_of_getElem?_some h
  rw [List.getElem?_set_self', List.getElem?_eq_getElem hlt]
  rfl

lemma getElem?_snoc_cases {α : Type} (l : List α) (a : α) (i : Nat) (x : α)
    (h : (l ++ [a])[i]? = some x) :
    (i < l.length ∧ l[i]? = some x) ∨ (i = l.length ∧ x = a) := by
  by_cases hi : i < l.length
  · left
    exact ⟨hi, by rwa [List.getElem?_append_left hi] at h⟩
  · right
    have hle : l.length ≤ i := Nat.le_of_not_lt hi
    rcases Nat.eq_or_lt_of_le hle with heq | hlt
    · rw [← heq, List.getElem?_concat_length] at h
      exact ⟨heq.symm, (Option.some.inj h).symm⟩
    · exfalso
      rw [List.getElem?_eq_none (by simp [List.length_append]; omega)] at h
      exact Option.noConfusion h

lemma sorted_snoc (l : List Nat) (x : Nat) (hs : List.Sorted (· < ·) l)
    (hx : ∀ a ∈ l, a < x) : List.Sorted (· < ·) (l ++ [x]) := by
  rw [List.Sorted, List.pairwise_append]
  refine ⟨hs, List.pairwise_singleton _ x, ?_⟩
  intro a ha b hb
  rw [List.mem_singleton] at hb
  subst hb
  exact hx a ha

lemma inv_of_eq (w wq : World) (h1 : wq.owner = w.owner)
    (h2 : wq.queue = w.queue) (h3 : wq.tasks = w.tasks)
    (h4 : wq.grants = w.grants) (hInv : Inv w) : Inv wq := by
  constructor
  · intro i t ht hact
    rw [h3] at ht
    rw [h1]
    exact hInv.ownerOfActive i t ht hact
  · intro i hi
    rw [h1] at hi
    obtain ⟨t, ht, hact⟩ := hInv.activeOfOwner i hi
    exact ⟨t, by rw [h3]; exact ht, hact⟩
  · intro i hi
    rw [h2] at hi
    obtain ⟨o, ht⟩ := hInv.queuedAcquiring i hi
    exact ⟨o, by rw [h3]; exact ht⟩
  · rw [h2]
    exact hInv.queueSorted
  · rw [h4]
    exact hInv.grantsSorted
  · intro g hg q hq
    rw [h4] at hg
    rw [h2] at hq
    exact hInv.grantsBeforeQueue g hg q hq
  · intro g hg
    rw [h4] at hg
    rw [h3]
    exact hInv.grantsLt g hg

lemma inv_enqueue (w : World) (o : Origin) (hInv : Inv w) :
    Inv (enqueueTask w ⟨o, Phase.acquiring⟩) := by
  have hlen : ∀ q ∈ w.queue, q < w.tasks.length := by
    intro q hq
    obtain ⟨o2, ht⟩ := hInv.queuedAcquiring q hq
    exact lt_of_getElem?_some ht
  constructor
  · intro i t ht hact
    have ht2 : (w.tasks ++ [⟨o, Phase.acquiring⟩])[i]? = some t := ht
    rcases getElem?_snoc_cases _ _ _ _ ht2 with ⟨_, hold⟩ | ⟨_, hx⟩
    · exact hInv.ownerOfActive i t hold hact
    · subst hx
      exact absurd hact (by simp [Phase.isActive])
  · intro i hi
    have hi2 : w.owner = some i := hi
    obtain ⟨t, ht, hact⟩ := hInv.activeOfOwner i hi2
    have hlt := lt_of_getElem?_some ht
    refine ⟨t, ?_, hact⟩
    show (w.tasks ++ [⟨o, Phase.acquiring⟩])[i]? = some t
    rw [List.getElem?_append_left hlt]
    exact ht
  · intro q hq
    have hq2 : q ∈ w.queue ++ [w.tasks.length] := hq
    rcases List.mem_append.1 hq2 with hq3 | hq3
    · obtain ⟨o2, ht⟩ := hInv.queuedAcquiring q hq3
      refine ⟨o2, ?_⟩
      show (w.tasks ++ [⟨o, Phase.acquiring⟩])[q]? = some ⟨o2, Phase.acquiring⟩
      rw [List.getElem?_append_left (hlen q hq3)]
      exact ht
    · rw [List.mem_singleton] at hq3
      subst hq3
      exact ⟨o, List.getElem?_concat_length _ _⟩
  · show (w.queue ++ [w.tasks.length]).Sorted (· < ·)
    exact sorted_snoc _ _ hInv.queueSorted hlen
  · exact hInv.grantsSorted
  · intro g hg q hq
    have hq2 : q ∈ w.queue ++ [w.tasks.length] := hq
    rcases List.mem_append.1 hq2 with hq3 | hq3
    · exact hInv.grantsBeforeQueue g hg q hq3
    · rw [List.mem_singleton] at hq3
      subst hq3
      exact hInv.grantsLt g hg
  · intro g hg
    show g < (w.tasks ++ [RefreshTask.mk o Phase.acquiring]).length
    rw [List.length_append]
    exact Nat.lt_of_lt_of_le (hInv.grantsLt g hg) (Nat.le_add_right _ _)

lemma inv_grant (w : World) (i : Nat) (rest : List Nat) (o : Origin)
    (hOwner : w.owner = none) (hQueue : w.queue = i :: rest)
    (hTask : w.tasks[i]? = some ⟨o, Phase.acquiring⟩) (hInv : Inv w) :
    Inv (grantWorld w i rest o) := by
  have hiLt : i < w.tasks.length := lt_of_getElem?_some hTask
  have hiMem : i ∈ w.queue := by
    rw [hQueue]
    exact List.mem_cons_self i rest
  have hRest : ∀ q ∈ rest, i < q := by
    have hs := hInv.queueSorted
    rw [hQueue, List.sorted_cons] at hs
    exact hs.1
  have hRestSorted : rest.Sorted (· < ·) := by
    have hs := hInv.queueSorted
    rw [hQueue, List.sorted_cons] at hs
    exact hs.2
  constructor
  · intro j t ht hact
    show some i = some j
    by_cases hji : j = i
    · rw [hji]
    · have ht2 : (w.tasks.set i ⟨o, Phase.fetching (snapshotOf w.state)⟩)[j]? = some t := ht
      rw [List.getElem?_set_ne (by omega)] at ht2
      have h5 := hInv.ownerOfActive j t ht2 hact
      rw [hOwner] at h5
      exact Option.noConfusion h5
  · intro j hj
    have hj2 : some i = some j := hj
    have hij : i = j := Option.some.inj hj2
    subst hij
    refine ⟨⟨o, Phase.fetching (snapshotOf w.state)⟩, ?_, rfl⟩
    show (w.tasks.set i ⟨o, Phase.fetching (snapshotOf w.state)⟩)[i]? = _
    exact getElem?_set_self_of_some _ _ hTask
  · intro q hq
    have hq2 : q ∈ rest := hq
    obtain ⟨o2, ht⟩ := hInv.queuedAcquiring q
      (by rw [hQueue]; exact List.mem_cons_of_mem i hq2)
    have hne : i ≠ q := Nat.ne_of_lt (hRest q hq2)
    refine ⟨o2, ?_⟩
    show (w.tasks.set i ⟨o, Phase.fetching (snapshotOf w.state)⟩)[q]? = _
    rw [List.getElem?_set_ne hne]
    exact ht
  · exact hRestSorted
  · show (w.grants ++ [i]).Sorted (· < ·)
    exact sorted_snoc _ _ hInv.grantsSorted
      (fun g hg => hInv.grantsBeforeQueue g hg i hiMem)
  · intro g hg q hq
    have hg2 : g ∈ w.grants ++ [i] := hg
    have hq2 : q ∈ rest := hq
    rcases List.mem_append.1 hg2 with hg3 | hg3
    · exact hInv.grantsBeforeQueue g hg3 q
        (by rw [hQueue]; exact List.mem_cons_of_mem i hq2)
    · rw [List.mem_singleton] at hg3
      subst hg3
      exact hRest q hq2
  · intro g hg
    have hg2 : g ∈ w.grants ++ [i] := hg
    show g < (w.tasks.set i ⟨o, Phase.fetching (snapshotOf w.state)⟩).length
    rw [List.length_set]
    rcases List.mem_append.1 hg2 with hg3 | hg3
    · exact hInv.grantsLt g hg3
    · rw [List.mem_singleton] at hg3
      subst hg3
      exact hiLt

lemma inv_resolve (w : World) (i : Nat) (o : Origin) (snap : Snapshot)
    (r : Except Unit FetchResult)
    (hTask : w.tasks[i]? = some ⟨o, Phase.fetching snap⟩) (hInv : Inv w) :
    Inv (resolveWorld w i o snap r) := by
  have hown : w.owner = some i := hInv.ownerOfActive i _ hTask rfl
  constructor
  · intro j t ht hact
    show w.owner = some j
    by_cases hji : j = i
    · rw [hji]
      exact hown
    · have ht2 : (w.tasks.set i ⟨o, Phase.resolved snap r⟩)[j]? = some t := ht
      rw [List.getElem?_set_ne (by omega)] at ht2
      exact hInv.ownerOfActive j t ht2 hact
  · intro j hj
    have hj2 : w.owner = some j := hj
    rw [hown] at hj2
    have hij : i = j := Option.some.inj hj2
    subst hij
    exact ⟨⟨o, Phase.resolved snap r⟩, getElem?_set_self_of_some _ _ hTask, rfl⟩
  · intro q hq
    have hq2 : q ∈ w.queue := hq
    obtain ⟨o2, ht⟩ := hInv.queuedAcquiring q hq2
    have hne : i ≠ q := by
      intro h
      rw [← h, hTask] at ht
      have h6 := Option.some.inj ht
      rw [RefreshTask.mk.injEq] at h6
      exact Phase.noConfusion h6.2
    refine ⟨o2, ?_⟩
    show (w.tasks.set i ⟨o, Phase.resolved snap r⟩)[q]? = _
    rw [List.getElem?_set_ne hne]
    exact ht
  · exact hInv.queueSorted
  · exact hInv.grantsSorted
  · exact hInv.grantsBeforeQueue
  · intro g hg
    show g < (w.tasks.set i ⟨o, Phase.resolved snap r⟩).length
    rw [List.length_set]
    exact hInv.grantsLt g hg

lemma inv_release (w wq : World) (i : Nat) (o : Origin) (snap : Snapshot)
    (r : Except Unit FetchResult) (ret : Except Unit (Option CurrencyRateState))
    (hOwner : w.owner = some i)
    (hTask : w.tasks[i]? = some ⟨o, Phase.resolved snap r⟩)
    (h1 : wq.owner = none) (h2 : wq.queue = w.queue)
    (h3 : wq.tasks = w.tasks.set i ⟨o, Phase.done ret⟩) (h4 : wq.grants = w.grants)
    (hInv : Inv w) : Inv wq := by
  constructor
  · intro j t ht hact
    rw [h3] at ht
    by_cases hji : j = i
    · subst hji
      have hx := getElem?_set_self_of_some w.tasks (⟨o, Phase.done ret⟩) hTask
      rw [hx] at ht
      have h5 := Option.some.inj ht
      rw [← h5] at hact
      exact absurd hact (by simp [Phase.isActive])
    · rw [List.getElem?_set_ne (by omega)] at ht
      have h5 := hInv.ownerOfActive j t ht hact
      rw [hOwner] at h5
      exact absurd (Option.some.inj h5) (fun he => hji he.symm)
  · intro j hj
    rw [h1] at hj
    exact Option.noConfusion hj
  · intro q hq
    rw [h2] at hq
    obtain ⟨o2, ht⟩ := hInv.queuedAcquiring q hq
    have hne : i ≠ q := by
      intro h
      rw [← h, hTask] at ht
      have h6 := Option.some.inj ht
      rw [RefreshTask.mk.injEq] at h6
      exact Phase.noConfusion h6.2
    refine ⟨o2, ?_⟩
    rw [h3, List.getElem?_set_ne hne]
    exact ht
  · rw [h2]
    exact hInv.queueSorted
  · rw [h4]
    exact hInv.grantsSorted
  · intro g hg q hq
    rw [h4] at hg
    rw [h2] at hq
    exact hInv.grantsBeforeQueue g hg q hq
  · intro g hg
    rw [h4] at hg
    rw [h3, List.length_set]
    exact hInv.grantsLt g hg

lemma inv_cont (w : World) (i : Nat) (o : Origin)
    (ret : Except Unit (Option CurrencyRateState))
    (hTask : w.tasks[i]? = some ⟨o, Phase.done ret⟩) (hInv : Inv w) :
    Inv (contWorld w i o) := by
  constructor
  · intro j t ht hact
    show w.owner = some j
    by_cases hji : j = i
    · subst hji
      have hx := getElem?_set_self_of_some w.tasks (⟨o, Phase.completed⟩) hTask
      have ht2 : (w.tasks.set j ⟨o, Phase.completed⟩)[j]? = some t := ht
      rw [hx] at ht2
      have h5 := Option.some.inj ht2
      rw [← h5] at hact
      exact absurd hact (by simp [Phase.isActive])
    · have ht2 : (w.tasks.set i ⟨o, Phase.completed⟩)[j]? = some t := ht
      rw [List.getElem?_set_ne (by omega)] at ht2
      exact hInv.ownerOfActive j t ht2 hact
  · intro j hj
    have hj2 : w.owner = some j := hj
    obtain ⟨t, ht, hact⟩ := hInv.activeOfOwner j hj2
    have hji : j ≠ i := by
      intro h
      rw [h, hTask] at ht
      have h5 := Option.some.inj ht
      rw [← h5] at hact
      exact absurd hact (by simp [Phase.isActive])
    refine ⟨t, ?_, hact⟩
    show (w.tasks.set i ⟨o, Phase.completed⟩)[j]? = some t
    rw [List.getElem?_set_ne (by omega)]
    exact ht
  · intro q hq
    have hq2 : q ∈ w.queue := hq
    obtain ⟨o2, ht⟩ := hInv.queuedAcquiring q hq2
    have hne : i ≠ q := by
      intro h
      rw [← h, hTask] at ht
      have h6 := Option.some.inj ht
      rw [RefreshTask.mk.injEq] at h6
      exact Phase.noConfusion h6.2
    refine ⟨o2, ?_⟩
    show (w.tasks.set i ⟨o, Phase.completed⟩)[q]? = _
    rw [List.getElem?_set_ne hne]
    exact ht
  · exact hInv.queueSorted
  · exact hInv.grantsSorted
  · exact hInv.grantsBeforeQueue
  · intro g hg
    show g < (w.tasks.set i ⟨o, Phase.completed⟩).length
    rw [List.length_set]
    exact hInv.grantsLt g hg

lemma inv_init (p : Option PartialCurrencyRateState) (u : Bool) :
    Inv (initWorld p u) := by
  constructor
  · intro i t ht hact
    have ht2 : ([⟨Origin.poll, Phase.acquiring⟩] : List RefreshTask)[i]? = some t := ht
    cases i with
    | zero =>
      have h5 := Option.some.inj ht2
      rw [← h5] at hact
      exact absurd hact (by simp [Phase.isActive])
    | succ n =>
      exact Option.noConfusion ht2
  · intro i hi
    exact Option.noConfusion hi
  · intro q hq
    have hq2 : q ∈ ([0] : List Nat) := hq
    rw [List.mem_singleton] at hq2
    subst hq2
    exact ⟨Origin.poll, rfl⟩
  · exact List.sorted_singleton 0
  · exact List.sorted_nil
  · intro g hg _ _
    exact absurd hg (List.not_mem_nil g)
  · intro g hg
    exact absurd hg (List.not_mem_nil g)

lemma inv_step (w wq : World) (l : Label) (hInv : Inv w) (hs : Step w l wq) :
    Inv wq := by
  cases hs with
  | tick h =>
    exact inv_of_eq (enqueueTask w ⟨Origin.poll, Phase.acquiring⟩) (tickWorld w)
      rfl rfl rfl rfl (inv_enqueue w Origin.poll hInv)
  | reqQuote code =>
    exact inv_of_eq (enqueueTask w ⟨Origin.reqQuote code, Phase.acquiring⟩)
      (reqQuoteWorld w code) rfl rfl rfl rfl
      (inv_enqueue w (Origin.reqQuote code) hInv)
  | reqBase symbol =>
    exact inv_of_eq (enqueueTask w ⟨Origin.reqBase symbol, Phase.acquiring⟩)
      (reqBaseWorld w symbol) rfl rfl rfl rfl
      (inv_enqueue w (Origin.reqBase symbol) hInv)
  | grant hOwner hQueue hTask =>
    exact inv_grant _ _ _ _ hOwner hQueue hTask hInv
  | fetchOk res hTask =>
    exact inv_resolve _ _ _ _ _ hTask hInv
  | fetchErr hTask =>
    exact inv_resolve _ _ _ _ _ hTask hInv
  | resumeOk hOwner hTask =>
    exact inv_release w _ _ _ _ _ _ hOwner hTask rfl rfl rfl rfl hInv
  | resumeErr hOwner hTask =>
    exact inv_release w _ _ _ _ _ _ hOwner hTask rfl rfl rfl rfl hInv
  | cont hTask =>
    exact inv_cont _ _ _ _ hTask hInv
  | destroy =>
    exact inv_of_eq w (destroyWorld w) rfl rfl rfl rfl hInv

lemma inv_reachable (p : Option PartialCurrencyRateState) (u : Bool) (w : World)
    (hr : Reachable p u w) : Inv w := by
  induction hr with
  | refl =>
    exact inv_init p u
  | tail hab hbc ih =>
    obtain ⟨l, hs⟩ := hbc
    exact inv_step _ _ l ih hs

lemma orElseJS_eq_match (p : Option String) (c : String) :
    orElseJS p c =
      (match p with
        | some s => if s = "" then c else s
        | none => c) := by
  cases p <;> rfl

lemma pollQuiescent_step (w wq : World) (l : Label) (hq : pollQuiescent w)
    (hs : Step w l wq) : pollQuiescent wq := by
  obtain ⟨htimer, htasks⟩ := hq
  cases hs with
  | tick h =>
    rw [htimer] at h
    exact Bool.noConfusion h
  | reqQuote code =>
    refine ⟨htimer, ?_⟩
    intro i o p ht hpoll
    have ht2 : (w.tasks ++ [⟨Origin.reqQuote code, Phase.acquiring⟩])[i]? = some ⟨o, p⟩ := ht
    rcases getElem?_snoc_cases _ _ _ _ ht2 with ⟨_, hold⟩ | ⟨_, hx⟩
    · exact htasks i o p hold hpoll
    · rw [RefreshTask.mk.injEq] at hx
      rw [hpoll] at hx
      exact Origin.noConfusion hx.1
  | reqBase symbol =>
    refine ⟨htimer, ?_⟩
    intro i o p ht hpoll
    have ht2 : (w.tasks ++ [⟨Origin.reqBase symbol, Phase.acquiring⟩])[i]? = some ⟨o, p⟩ := ht
    rcases getElem?_snoc_cases _ _ _ _ ht2 with ⟨_, hold⟩ | ⟨_, hx⟩
    · exact htasks i o p hold hpoll
    · rw [RefreshTask.mk.injEq] at hx
      rw [hpoll] at hx
      exact Origin.noConfusion hx.1
  | @grant i rest o hOwner hQueue hTask =>
    refine ⟨htimer, ?_⟩
    intro j o2 p ht hpoll
    by_cases hji : j = i
    · subst hji
      have hx := getElem?_set_self_of_some w.tasks
        (⟨o, Phase.fetching (snapshotOf w.state)⟩) hTask
      have ht2 : (w.tasks.set j ⟨o, Phase.fetching (snapshotOf w.state)⟩)[j]? = some ⟨o2, p⟩ := ht
      rw [hx] at ht2
      have h5 := Option.some.inj ht2
      rw [RefreshTask.mk.injEq] at h5
      exact Phase.noConfusion (htasks j o Phase.acquiring hTask (h5.1.trans hpoll))
    · have ht2 : (w.tasks.set i ⟨o, Phase.fetching (snapshotOf w.state)⟩)[j]? = some ⟨o2, p⟩ := ht
      rw [List.getElem?_set_ne (by omega)] at ht2
      exact htasks j o2 p ht2 hpoll
  | @fetchOk i o snap res hTask =>
    refine ⟨htimer, ?_⟩
    intro j o2 p ht hpoll
    by_cases hji : j = i
    · subst hji
      have hx := getElem?_set_self_of_some w.tasks
        (⟨o, Phase.resolved snap (Except.ok res)⟩) hTask
      have ht2 : (w.tasks.set j ⟨o, Phase.resolved snap (Except.ok res)⟩)[j]? = some ⟨o2, p⟩ := ht
      rw [hx] at ht2
      have h5 := Option.some.inj ht2
      rw [RefreshTask.mk.injEq] at h5
      exact Phase.noConfusion (htasks j o (Phase.fetching snap) hTask (h5.1.trans hpoll))
    · have ht2 : (w.tasks.set i ⟨o, Phase.resolved snap (Except.ok res)⟩)[j]? = some ⟨o2, p⟩ := ht
      rw [List.getElem?_set_ne (by omega)] at ht2
      exact htasks j o2 p ht2 hpoll
  | @fetchErr i o snap hTask =>
    refine ⟨htimer, ?_⟩
    intro j o2 p ht hpoll
    by_cases hji : j = i
    · subst hji
      have hx := getElem?_set_self_of_some w.tasks
        (⟨o, Phase.resolved snap (Except.error ())⟩) hTask
      have ht2 : (w.tasks.set j ⟨o, Phase.resolved snap (Except.error ())⟩)[j]? = some ⟨o2, p⟩ := ht
      rw [hx] at ht2
      have h5 := Option.some.inj ht2
      rw [RefreshTask.mk.injEq] at h5
      exact Phase.noConfusion (htasks j o (Phase.fetching snap) hTask (h5.1.trans hpoll))
    · have ht2 : (w.tasks.set i ⟨o, Phase.resolved snap (Except.error ())⟩)[j]? = some ⟨o2, p⟩ := ht
      rw [List.getElem?_set_ne (by omega)] at ht2
      exact htasks j o2 p ht2 hpoll
  | @resumeOk i o snap res hOwner hTask =>
    refine ⟨htimer, ?_⟩
    intro j o2 p ht hpoll
    by_cases hji : j = i
    · subst hji
      have hx := getElem?_set_self_of_some w.tasks
        (⟨o, Phase.done (Except.ok none)⟩) hTask
      have ht2 : (w.tasks.set j ⟨o, Phase.done (Except.ok none)⟩)[j]? = some ⟨o2, p⟩ := ht
      rw [hx] at ht2
      have h5 := Option.some.inj ht2
      rw [RefreshTask.mk.injEq] at h5
      exact Phase.noConfusion
        (htasks j o (Phase.resolved snap (Except.ok res)) hTask (h5.1.trans hpoll))
    · have ht2 : (w.tasks.set i ⟨o, Phase.done (Except.ok none)⟩)[j]? = some ⟨o2, p⟩ := ht
      rw [List.getElem?_set_ne (by omega)] at ht2
      exact htasks j o2 p ht2 hpoll
  | @resumeErr i o snap hOwner hTask =>
    refine ⟨htimer, ?_⟩
    intro j o2 p ht hpoll
    by_cases hji : j = i
    · subst hji
      have hx := getElem?_set_self_of_some w.tasks
        (⟨o, Phase.done (Except.error ())⟩) hTask
      have ht2 : (w.tasks.set j ⟨o, Phase.done (Except.error ())⟩)[j]? = some ⟨o2, p⟩ := ht
      rw [hx] at ht2
      have h5 := Option.some.inj ht2
      rw [RefreshTask.mk.injEq] at h5
      exact Phase.noConfusion
        (htasks j o (Phase.resolved snap (Except.error ())) hTask (h5.1.trans hpoll))
    · have ht2 : (w.tasks.set i ⟨o, Phase.done (Except.error ())⟩)[j]? = some ⟨o2, p⟩ := ht
      rw [List.getElem?_set_ne (by omega)] at ht2
      exact htasks j o2 p ht2 hpoll
  | @cont i o ret hTask =>
    have honp : o ≠ Origin.poll := by
      intro h
      exact Phase.noConfusion (htasks i o (Phase.done ret) hTask h)
    refine ⟨?_, ?_⟩
    · show (if o = Origin.poll then true else w.timerSet) = false
      rw [if_neg honp]
      exact htimer
    · intro j o2 p ht hpoll
      by_cases hji : j = i
      · subst hji
        have hx := getElem?_set_self_of_some w.tasks (⟨o, Phase.completed⟩) hTask
        have ht2 : (w.tasks.set j ⟨o, Phase.completed⟩)[j]? = some ⟨o2, p⟩ := ht
        rw [hx] at ht2
        have h5 := Option.some.inj ht2
        rw [RefreshTask.mk.injEq] at h5
        exact h5.2.symm
      · have ht2 : (w.tasks.set i ⟨o, Phase.completed⟩)[j]? = some ⟨o2, p⟩ := ht
        rw [List.getElem?_set_ne (by omega)] at ht2
        exact htasks j o2 p ht2 hpoll
  | destroy =>
    exact ⟨rfl, htasks⟩

lemma pollQuiescent_reach (w wq : World) (hq : pollQuiescent w)
    (hr : ReachFrom w wq) : pollQuiescent wq := by
  induction hr with
  | refl =>
    exact hq
  | tail hab hbc ih =>
    obtain ⟨l, hs⟩ := hbc
    exact pollQuiescent_step _ _ l ih hs

lemma pollQuiescent_no_tick (w : World) (hq : pollQuiescent w) :
    ∀ wq, ¬ Step w Label.tick wq := by
  intro wq hs
  cases hs with
  | tick h =>
    rw [hq.1] at h
    exact Bool.noConfusion h

/-- C1: in every reachable interleaving of poll-loop ticks and
currency-change requests, at most one fetch-and-commit cycle of
`updateExchangeRate` holds the mutex at any instant, and the lock-grant
history is strictly increasing in dispatch order — refreshes are
serialized in the FIFO order in which they were dispatched to the mutex. -/
theorem C1_serialization (p : Option PartialCurrencyRateState) (u : Bool)
    (w : World) (hr : Reachable p u w) :
    (∀ i j, activeAt w i → activeAt w j → i = j) ∧
    w.grants.Sorted (· < ·) := by
  have hInv := inv_reachable p u w hr
  refine ⟨?_, hInv.grantsSorted⟩
  rintro i j ⟨t, ht, hact⟩ ⟨t2, ht2, hact2⟩
  have h1 := hInv.ownerOfActive i t ht hact
  have h2 := hInv.ownerOfActive j t2 ht2 hact2
  rw [h1] at h2
  exact Option.some.inj h2

/-- Witness: C1 applied to the concrete reachable world in which the
constructor's first poll refresh has just acquired the lock. -/
theorem C1_serialization_witness :
    (∀ i j, activeAt c1StepWorld i → activeAt c1StepWorld j → i = j) ∧
    c1StepWorld.grants.Sorted (· < ·) :=
  C1_serialization none false c1StepWorld
    (Relation.ReflTransGen.single ⟨Label.grant 0, Step.grant rfl rfl rfl⟩)

/-- C2: every successful resume of `updateExchangeRate` commits, in one
atomic step, the full replacement state — `currentCurrency` becomes the
resolved quote, `nativeCurrency` the resolved base,
`conversionDate`/`conversionRate`/`usdConversionRate` come from the fetch
result, both pending fields are cleared — and emits exactly one
state-changed notification carrying the whole new snapshot; since the
commit is a single step of the semantics, no intermediate
partially-applied state is ever observable. -/
theorem C2_atomicCommit (w : World) (i : Nat) (wq : World)
    (hs : Step w (Label.resumeOk i) wq) :
    ∃ (o : Origin) (snap : Snapshot) (res : FetchResult),
      w.tasks[i]? = some ⟨o, Phase.resolved snap (Except.ok res)⟩ ∧
      wq.state = commitState snap res ∧
      wq.state.currentCurrency = resolvedQuote snap ∧
      wq.state.nativeCurrency = resolvedBase snap ∧
      wq.state.conversionDate = res.conversionDate ∧
      wq.state.conversionRate = res.conversionRate ∧
      wq.state.usdConversionRate = res.usdConversionRate ∧
      wq.state.pendingCurrentCurrency = none ∧
      wq.state.pendingNativeCurrency = none ∧
      wq.events = Event.stateChanged (commitState snap res) :: w.events := by
  cases hs with
  | resumeOk hOwner hTask =>
    exact ⟨_, _, _, hTask, rfl, rfl, rfl, rfl, rfl, rfl, rfl, rfl, rfl⟩

/-- Witness: C2 applied to a concrete successful resume committing the
`eur`/`ETH` pair. -/
theorem C2_atomicCommit_witness :
    ∃ (o : Origin) (snap : Snapshot) (res : FetchResult),
      c2World.tasks[0]? = some ⟨o, Phase.resolved snap (Except.ok res)⟩ ∧
      (resumeOkWorld c2World 0 (Origin.reqQuote "eur") c2Snap c2Res).state =
        commitState snap res ∧
      (resumeOkWorld c2World 0 (Origin.reqQuote "eur") c2Snap c2Res).state.currentCurrency =
        resolvedQuote snap ∧
      (resumeOkWorld c2World 0 (Origin.reqQuote "eur") c2Snap c2Res).state.nativeCurrency =
        resolvedBase snap ∧
      (resumeOkWorld c2World 0 (Origin.reqQuote "eur") c2Snap c2Res).state.conversionDate =
        res.conversionDate ∧
      (resumeOkWorld c2World 0 (Origin.reqQuote "eur") c2Snap c2Res).state.conversionRate =
        res.conversionRate ∧
      (resumeOkWorld c2World 0 (Origin.reqQuote "eur") c2Snap c2Res).state.usdConversionRate =
        res.usdConversionRate ∧
      (resumeOkWorld c2World 0 (Origin.reqQuote "eur") c2Snap c2Res).state.pendingCurrentCurrency =
        none ∧
      (resumeOkWorld c2World 0 (Origin.reqQuote "eur") c2Snap c2Res).state.pendingNativeCurrency =
        none ∧
      (resumeOkWorld c2World 0 (Origin.reqQuote "eur") c2Snap c2Res).events =
        Event.stateChanged (commitState snap res) :: c2World.events :=
  C2_atomicCommit c2World 0 _ (Step.resumeOk rfl rfl)

/-- C3: a run of `updateExchangeRate` whose fetch fails commits nothing —
sequentially, the run propagates the error and its post state is identical
to the pre-fetch state (confirmed fields and the pending fields exactly as
captured); in the interleaving semantics the failing resume step leaves
state, queue and event log untouched and still releases the mutex. -/
theorem C3_failureNoCommit :
    (∀ (fetch : FetchFn) (u : Bool) (s : CurrencyRateState) (e : Unit),
        fetch (resolvedQuote (snapshotOf s)) (resolvedBase (snapshotOf s)) u =
          Except.error e →
        updateExchangeRateRun fetch u s = (Except.error e, s)) ∧
    (∀ (w : World) (i : Nat) (wq : World), Step w (Label.resumeErr i) wq →
        wq.state = w.state ∧ wq.owner = none ∧ wq.queue = w.queue ∧
        wq.events = w.events) := by
  constructor
  · intro fetch u s e h
    simp [updateExchangeRateRun, h]
  · intro w i wq hs
    cases hs with
    | resumeErr hOwner hTask =>
      exact ⟨rfl, rfl, rfl, rfl⟩

/-- Witness: C3 at a concrete always-failing fetcher and at a concrete
failing resume step. -/
theorem C3_failureNoCommit_witness :
    updateExchangeRateRun (fun _ _ _ => Except.error ()) false defaultState =
      (Except.error (), defaultState) ∧
    ((resumeErrWorld c3World 0 Origin.poll).state = c3World.state ∧
      (resumeErrWorld c3World 0 Origin.poll).owner = none ∧
      (resumeErrWorld c3World 0 Origin.poll).queue = c3World.queue ∧
      (resumeErrWorld c3World 0 Origin.poll).events = c3World.events) :=
  ⟨C3_failureNoCommit.1 (fun _ _ _ => Except.error ()) false defaultState () rfl,
   C3_failureNoCommit.2 c3World 0 _ (Step.resumeErr rfl rfl)⟩

/-- C4 counterexample: with `pendingCurrentCurrency` present but equal to
the empty string (as after `setCurrentCurrency ""`), the fetcher is called
with the confirmed `"usd"` and not with the present pending value `""` —
JS `||` treats the empty string as absent — refuting the claim that the
pending value is used whenever it is present. -/
theorem C4_counterexample :
    c4World.state.pendingCurrentCurrency = some "" ∧
    Step c4World (Label.grant 0) (grantWorld c4World 0 [] (Origin.reqQuote "")) ∧
    (grantWorld c4World 0 [] (Origin.reqQuote "")).events =
      [Event.fetchCall "usd" "ETH" false] ∧
    "usd" ≠ "" :=
  ⟨rfl, Step.grant rfl rfl rfl, rfl, by decide⟩

/-- C4 (amended): on every lock grant the fetcher is called with the pair
resolved from the snapshot taken at acquisition as: the pending value if
it is present and non-empty, the confirmed value otherwise (JS `||`
truthiness), symmetrically for quote and base. -/
theorem C4_pairResolution (w : World) (i : Nat) (wq : World)
    (hs : Step w (Label.grant i) wq) :
    wq.events = Event.fetchCall
        (match w.state.pendingCurrentCurrency with
          | some s => if s = "" then w.state.currentCurrency else s
          | none => w.state.currentCurrency)
        (match w.state.pendingNativeCurrency with
          | some s => if s = "" then w.state.nativeCurrency else s
          | none => w.state.nativeCurrency)
        w.includeUsdRate :: w.events := by
  cases hs with
  | grant hOwner hQueue hTask =>
    show Event.fetchCall (resolvedQuote (snapshotOf w.state))
        (resolvedBase (snapshotOf w.state)) w.includeUsdRate :: w.events = _
    rw [show resolvedQuote (snapshotOf w.state) =
          orElseJS w.state.pendingCurrentCurrency w.state.currentCurrency from rfl,
        show resolvedBase (snapshotOf w.state) =
          orElseJS w.state.pendingNativeCurrency w.state.nativeCurrency from rfl,
        orElseJS_eq_match, orElseJS_eq_match]

/-- Witness: C4 (amended) at a concrete grant with pending quote `eur`. -/
theorem C4_pairResolution_witness :
    (grantWorld c4wWorld 0 [] (Origin.reqQuote "eur")).events =
      Event.fetchCall
        (match c4wWorld.state.pendingCurrentCurrency with
          | some s => if s = "" then c4wWorld.state.currentCurrency else s
          | none => c4wWorld.state.currentCurrency)
        (match c4wWorld.state.pendingNativeCurrency with
          | some s => if s = "" then c4wWorld.state.nativeCurrency else s
          | none => c4wWorld.state.nativeCurrency)
        c4wWorld.includeUsdRate :: c4wWorld.events :=
  C4_pairResolution c4wWorld 0 _ (Step.grant rfl rfl rfl)

/-- C5: `setCurrentCurrency code` synchronously writes
`pendingCurrentCurrency = code` into the state and emits the resulting
state-changed notification before the dispatched refresh performs any
fetch (the new task is still waiting on the mutex and no fetch-call event
is emitted by this step); `setNativeCurrency` is symmetric on
`pendingNativeCurrency`; the triggered refresh goes through
`safelyExecute`, so the caller observes a swallowed failure (`none`) or
`undefined` (`some none`), never a propagated error. -/
theorem C5_requestWrites :
    (∀ (w : World) (code : String) (wq : World),
        Step w (Label.reqQuote code) wq →
        wq.state.pendingCurrentCurrency = some code ∧
        wq.state = { w.state with pendingCurrentCurrency := some code } ∧
        wq.events = Event.stateChanged
          { w.state with pendingCurrentCurrency := some code } :: w.events ∧
        wq.tasks = w.tasks ++ [⟨Origin.reqQuote code, Phase.acquiring⟩] ∧
        wq.queue = w.queue ++ [w.tasks.length]) ∧
    (∀ (w : World) (symbol : String) (wq : World),
        Step w (Label.reqBase symbol) wq →
        wq.state.pendingNativeCurrency = some symbol ∧
        wq.state = { w.state with pendingNativeCurrency := some symbol } ∧
        wq.events = Event.stateChanged
          { w.state with pendingNativeCurrency := some symbol } :: w.events ∧
        wq.tasks = w.tasks ++ [⟨Origin.reqBase symbol, Phase.acquiring⟩] ∧
        wq.queue = w.queue ++ [w.tasks.length]) ∧
    (∀ (fetch : FetchFn) (u : Bool) (code : String) (s : CurrencyRateState),
        (setCurrentCurrencyRun fetch u code s).2.1.pendingCurrentCurrency =
          some code ∧
        ((setCurrentCurrencyRun fetch u code s).1 = none ∨
          (setCurrentCurrencyRun fetch u code s).1 = some none)) ∧
    (∀ (fetch : FetchFn) (u : Bool) (symbol : String) (s : CurrencyRateState),
        (setNativeCurrencyRun fetch u symbol s).2.1.pendingNativeCurrency =
          some symbol ∧
        ((setNativeCurrencyRun fetch u symbol s).1 = none ∨
          (setNativeCurrencyRun fetch u symbol s).1 = some none)) := by
  refine ⟨?_, ?_, ?_, ?_⟩
  · intro w code wq hs
    cases hs
    exact ⟨rfl, rfl, rfl, rfl, rfl⟩
  · intro w symbol wq hs
    cases hs
    exact ⟨rfl, rfl, rfl, rfl, rfl⟩
  · intro fetch u code s
    refine ⟨rfl, ?_⟩
    rcases hfe : fetch
        (resolvedQuote (snapshotOf { s with pendingCurrentCurrency := some code }))
        (resolvedBase (snapshotOf { s with pendingCurrentCurrency := some code }))
        u with e | res
    · left
      simp [setCurrentCurrencyRun, updateExchangeRateRun, hfe, safelyExecute]
    · right
      simp [setCurrentCurrencyRun, updateExchangeRateRun, hfe, safelyExecute]
  · intro fetch u symbol s
    refine ⟨rfl, ?_⟩
    rcases hfe : fetch
        (resolvedQuote (snapshotOf { s with pendingNativeCurrency := some symbol }))
        (resolvedBase (snapshotOf { s with pendingNativeCurrency := some symbol }))
        u with e | res
    · left
      simp [setNativeCurrencyRun, updateExchangeRateRun, hfe, safelyExecute]
    · right
      simp [setNativeCurrencyRun, updateExchangeRateRun, hfe, safelyExecute]

/-- Witness: C5 at a concrete `setCurrentCurrency "eur"` request step on a
fresh controller and at a concrete failing fetcher. -/
theorem C5_requestWrites_witness :
    (reqQuoteWorld (initWorld none false) "eur").state.pendingCurrentCurrency =
      some "eur" ∧
    ((setCurrentCurrencyRun (fun _ _ _ => Except.error ()) false "eur" defaultState).1 =
        none ∨
      (setCurrentCurrencyRun (fun _ _ _ => Except.error ()) false "eur" defaultState).1 =
        some none) :=
  ⟨(C5_requestWrites.1 (initWorld none false) "eur" _ (Step.reqQuote "eur")).1,
   (C5_requestWrites.2.2.1 (fun _ _ _ => Except.error ()) false "eur" defaultState).2⟩

/-- C6 counterexample: `destroy` during an in-flight poll refresh does not
stop the loop. In the trace below the controller is destroyed while its
first poll refresh is fetching; the poll continuation then re-arms the
timer, the configured interval elapses, and a second fetch call is made
after teardown — refuting the claim that no fetch call occurs after
`destroy` once the interval elapses. -/
theorem C6_counterexample :
    Step b0 (Label.grant 0) b1 ∧
    Step b1 Label.destroy b2 ∧
    b2.destroyed = true ∧ b2.timerSet = false ∧
    Step b2 (Label.fetchErr 0) b3 ∧
    Step b3 (Label.resumeErr 0) b4 ∧
    Step b4 (Label.cont 0) b5 ∧
    b5.timerSet = true ∧
    Step b5 Label.tick b6 ∧
    Step b6 (Label.grant 1) b7 ∧
    b7.events = [Event.fetchCall "usd" "ETH" false,
      Event.fetchCall "usd" "ETH" false] ∧
    b7.destroyed = true :=
  ⟨Step.grant rfl rfl rfl, Step.destroy, rfl, rfl, Step.fetchErr rfl,
   Step.resumeErr rfl rfl, Step.cont rfl, rfl, Step.tick rfl,
   Step.grant rfl rfl rfl, rfl, rfl⟩

/-- C6 (amended): the poll loop re-arms its timer after every
poll-originated refresh settles, successful or failed; `destroy` marks the
controller destroyed and clears the pending timer; and from any world
whose poll loop is quiescent (timer unarmed, every poll-originated refresh
completed) no further tick can ever fire — but teardown only guarantees
that quiescence when no poll refresh is in flight at `destroy` time (see
the counterexample trace otherwise). -/
theorem C6_pollLifecycle :
    (∀ (w : World) (i : Nat) (wq : World), Step w (Label.cont i) wq →
        ∀ (ret : Except Unit (Option CurrencyRateState)),
          w.tasks[i]? = some ⟨Origin.poll, Phase.done ret⟩ →
          wq.timerSet = true) ∧
    (∀ (w wq : World), Step w Label.destroy wq →
        wq.destroyed = true ∧ wq.timerSet = false) ∧
    (∀ (w wq : World), pollQuiescent w → ReachFrom w wq →
        pollQuiescent wq ∧ ∀ w2, ¬ Step wq Label.tick w2) := by
  refine ⟨?_, ?_, ?_⟩
  · intro w i wq hs ret hTask
    cases hs with
    | @cont _ o2 ret2 hT =>
      rw [hT] at hTask
      have h5 := Option.some.inj hTask
      rw [RefreshTask.mk.injEq] at h5
      show (if o2 = Origin.poll then true else w.timerSet) = true
      rw [if_pos h5.1]
  · intro w wq hs
    cases hs
    exact ⟨rfl, rfl⟩
  · intro w wq hq hr
    refine ⟨pollQuiescent_reach w wq hq hr, ?_⟩
    exact pollQuiescent_no_tick wq (pollQuiescent_reach w wq hq hr)

/-- Witness: C6 (amended) at a concrete poll continuation after a failed
refresh, a concrete `destroy` step, and a concrete quiescent destroyed
world. -/
theorem C6_pollLifecycle_witness :
    (contWorld c6wWorld 0 Origin.poll).timerSet = true ∧
    (destroyWorld c6qWorld).destroyed = true ∧
    (pollQuiescent c6qWorld ∧ ∀ w2, ¬ Step c6qWorld Label.tick w2) :=
  ⟨C6_pollLifecycle.1 c6wWorld 0 _ (Step.cont rfl) (Except.error ()) rfl,
   (C6_pollLifecycle.2.1 c6qWorld _ Step.destroy).1,
   C6_pollLifecycle.2.2 c6qWorld c6qWorld
     ⟨rfl, fun i o p h _ => by cases i <;> exact Option.noConfusion h⟩
     Relation.ReflTransGen.refl⟩

/-- C7 counterexample: a successful run of `updateExchangeRate` resolves
`undefined` (`Except.ok none`), not the freshly committed `RateState`
(the body, typed `Promise<CurrencyRateState | void>`, has no `return`
statement), and a failed run rejects rather than failing silently — the
silence is provided by `safelyExecute` at the call sites. -/
theorem C7_counterexample :
    (updateExchangeRateRun (fun _ _ _ => Except.ok ⟨1000, 91, none⟩) false
        defaultState).1 = Except.ok none ∧
    (updateExchangeRateRun (fun _ _ _ => Except.ok ⟨1000, 91, none⟩) false
        defaultState).2 = commitState (snapshotOf defaultState) ⟨1000, 91, none⟩ ∧
    (updateExchangeRateRun (fun _ _ _ => Except.ok ⟨1000, 91, none⟩) false
        defaultState).1 ≠
      Except.ok (some ((updateExchangeRateRun (fun _ _ _ => Except.ok ⟨1000, 91, none⟩)
        false defaultState).2)) ∧
    (updateExchangeRateRun (fun _ _ _ => Except.error ()) false defaultState).1 =
      Except.error () :=
  ⟨rfl, rfl, fun h => Option.noConfusion (Except.ok.inj h), rfl⟩

/-- C7 (amended): `updateExchangeRate` commits the new state on a
successful fetch but resolves `undefined`; on failure it rejects with the
fetch error and leaves the state unchanged; at its call sites it is
wrapped in `safelyExecute`, so the caller observes a swallowed failure
(`none`) or `undefined` (`some none`) — never the new `RateState` and
never a propagated error. -/
theorem C7_refreshContract (fetch : FetchFn) (u : Bool) (s : CurrencyRateState) :
    (∀ res, fetch (resolvedQuote (snapshotOf s)) (resolvedBase (snapshotOf s)) u =
        Except.ok res →
      updateExchangeRateRun fetch u s =
        (Except.ok none, commitState (snapshotOf s) res)) ∧
    (∀ e, fetch (resolvedQuote (snapshotOf s)) (resolvedBase (snapshotOf s)) u =
        Except.error e →
      updateExchangeRateRun fetch u s = (Except.error e, s)) ∧
    (safelyExecute (updateExchangeRateRun fetch u s).1 = none ∨
      safelyExecute (updateExchangeRateRun fetch u s).1 = some none) := by
  refine ⟨?_, ?_, ?_⟩
  · intro res h
    simp [updateExchangeRateRun, h]
  · intro e h
    simp [updateExchangeRateRun, h]
  · rcases hfe : fetch (resolvedQuote (snapshotOf s)) (resolvedBase (snapshotOf s)) u
      with e | res
    · left
      simp [updateExchangeRateRun, hfe, safelyExecute]
    · right
      simp [updateExchangeRateRun, hfe, safelyExecute]

/-- Witness: C7 (amended) at a concrete succeeding and a concrete failing
fetcher. -/
theorem C7_refreshContract_witness :
    updateExchangeRateRun (fun _ _ _ => Except.ok ⟨1000, 91, none⟩) false
        defaultState =
      (Except.ok none, commitState (snapshotOf defaultState) ⟨1000, 91, none⟩) ∧
    updateExchangeRateRun (fun _ _ _ => Except.error ()) false defaultState =
      (Except.error (), defaultState) :=
  ⟨(C7_refreshContract (fun _ _ _ => Except.ok ⟨1000, 91, none⟩) false
      defaultState).1 ⟨1000, 91, none⟩ rfl,
   (C7_refreshContract (fun _ _ _ => Except.error ()) false defaultState).2.1 () rfl⟩

/-- C8 counterexample: the refresh interval is not a constructor
parameter — no choice of construction arguments (partial state override,
include-USD flag, fetcher) can produce a controller whose `interval`
differs from the fixed initializer 180000. -/
theorem C8_counterexample :
    ¬ ∃ (p : Option PartialCurrencyRateState) (u : Bool) (f : FetchFn),
        (mkCurrencyRateController p u f).interval ≠ 180000 := by
  rintro ⟨p, u, f, h⟩
  exact h rfl

/-- C8 (amended): construction configures the initial partial state
override (merged over the default state), the include-USD-rate flag and
the rate-fetch implementation; the refresh interval is the fixed private
initializer 180000 ms and is not a constructor parameter. -/
theorem C8_construction (p : Option PartialCurrencyRateState) (u : Bool)
    (f : FetchFn) :
    (mkCurrencyRateController p u f).interval = 180000 ∧
    (mkCurrencyRateController p u f).includeUsdRate = u ∧
    (mkCurrencyRateController p u f).fetchExchangeRate = f ∧
    (mkCurrencyRateController p u f).state =
      mergeState defaultState (p.getD emptyPartial) ∧
    mergeState defaultState emptyPartial = defaultState :=
  ⟨rfl, rfl, rfl, rfl, rfl⟩

end CRC

namespace AddressBook

/-- C9: `AddressBookController.set` returns `false` and leaves the address
book unchanged whenever the external `isValidAddress` oracle rejects the
address; for an accepted address it returns `true` and the book maps that
address to the entry `{address, name, chainId, memo}` while every other
key is untouched; omitting `chainId` and `memo` defaults them to `1` and
the empty string. -/
theorem C9_setBehavior (isValidAddress : String → Bool) (book : AddressBookMap)
    (address name : String) (chainId : Int) (memo : String) :
    (isValidAddress address = false →
      set isValidAddress book address name chainId memo = (false, book)) ∧
    (isValidAddress address = true →
      (set isValidAddress book address name chainId memo).1 = true ∧
      (set isValidAddress book address name chainId memo).2 address =
        some ⟨address, name, chainId, memo⟩ ∧
      ∀ k, k ≠ address →
        (set isValidAddress book address name chainId memo).2 k = book k) ∧
    set isValidAddress book address name = set isValidAddress book address name 1 "" := by
  refine ⟨?_, ?_, rfl⟩
  · intro h
    simp [set, h]
  · intro h
    refine ⟨?_, ?_, ?_⟩
    · simp [set, h]
    · simp [set, h, extendWith]
    · intro k hk
      simp [set, h, extendWith, hk]

/-- Witness: C9 at a concrete oracle accepting exactly `0xabc`, with one
rejected and one accepted insertion into the empty book. -/
theorem C9_setBehavior_witness :
    set (fun s => s == "0xabc") (fun _ => none) "bogus" "alice" 1 "" =
      (false, (fun _ => none : AddressBookMap)) ∧
    (set (fun s => s == "0xabc") (fun _ => none) "0xabc" "bob" 5 "note").1 = true ∧
    (set (fun s => s == "0xabc") (fun _ => none) "0xabc" "bob" 5 "note").2 "0xabc" =
      some ⟨"0xabc", "bob", 5, "note"⟩ :=
  ⟨(C9_setBehavior (fun s => s == "0xabc") (fun _ => none) "bogus" "alice" 1 "").1
      (by decide),
   ((C9_setBehavior (fun s => s == "0xabc") (fun _ => none) "0xabc" "bob" 5 "note").2.1
      (by decide)).1,
   ((C9_setBehavior (fun s => s == "0xabc") (fun _ => none) "0xabc" "bob" 5 "note").2.1
      (by decide)).2.1⟩

end AddressBook

namespace Endowments

/-- C10: for every builder option, the wasm `specificationBuilder` returns
the specification with `permissionType` `Endowment`, `targetKey`
`endowment:wasm` and `allowedCaveats` null, whose `endowmentGetter`
returns exactly the one-element list `['WebAssembly']` for every getter
option; the result does not depend on any input. -/
theorem C10_wasmSpecification (b : Option BuilderOptions)
    (g : Option EndowmentGetterParams) :
    (webAssemblyEndowmentBuilder.specificationBuilder b).permissionType =
      PermissionType.Endowment ∧
    (webAssemblyEndowmentBuilder.specificationBuilder b).targetKey =
      "endowment:wasm" ∧
    (webAssemblyEndowmentBuilder.specificationBuilder b).allowedCaveats = none ∧
    (webAssemblyEndowmentBuilder.specificationBuilder b).endowmentGetter g =
      ["WebAssembly"] ∧
    ∀ b2 : Option BuilderOptions,
      webAssemblyEndowmentBuilder.specificationBuilder b =
        webAssemblyEndowmentBuilder.specificationBuilder b2 :=
  ⟨rfl, rfl, rfl, rfl, fun _ => rfl⟩

end Endowments
